import Mathlib

/-!
Shallow embedding of the framework-side scheduler driver
(`src/nexus_sched.cpp`) and the common validation routines
(`src/common/validation.cpp`) of the repository, together with proofs of
the behavioural properties stated about them.

The scheduler actor (`SchedulerProcess::operator()`) is modelled as a
step function on an explicit state record: each message dequeued by
`receive` is an `Event`, and processing it yields the successor state
plus a list of observable `Output`s (user callbacks, network sends,
reliable-send registrations).  C++ `unordered_map`s are modelled as
association lists, including the insert-on-lookup behaviour of
`operator[]`.  The fault-tolerant messaging layer (`FTMessaging`,
declared in `ft_messaging.hpp` but not part of the sources here) is
modelled from the specification.
-/

namespace NexusSched

/-- Association-list lookup, modelling `unordered_map::find`. -/
def aget? [DecidableEq α] : List (α × β) → α → Option β
  | [], _ => none
  | q :: rest, k => if q.1 = k then some q.2 else aget? rest k

/-- Association-list insert-or-assign, modelling `map[k] = v`. -/
def aset [DecidableEq α] : List (α × β) → α → β → List (α × β)
  | [], k, v => [(k, v)]
  | q :: rest, k, v => if q.1 = k then (k, v) :: rest else q :: aset rest k v

/-- Association-list erase, modelling `unordered_map::erase`. -/
def aerase [DecidableEq α] : List (α × β) → α → List (α × β)
  | [], _ => []
  | q :: rest, k => if q.1 = k then aerase rest k else q :: aerase rest k

/-- C++ `unordered_map::operator[]`: returns the stored value for `k`, or
default-constructs, inserts and returns the default when `k` is absent.
The (possibly extended) map is returned alongside the value. -/
def aidx [DecidableEq α] [Inhabited β] (m : List (α × β)) (k : α) : β × List (α × β) :=
  match aget? m k with
  | some v => (v, m)
  | none => (default, aset m k default)

/-- Mesos/nexus identifiers, modelled as strings as in the source. -/
abbrev OfferID := String

abbrev SlaveID := String

abbrev FrameworkID := String

abbrev TaskID := Nat

/-- A libprocess PID (endpoint address); the default-constructed (null)
PID is the empty string. -/
abbrev PID := String

abbrev Params := List (String × String)

/-- `ExecutorInfo(uri, arg)` from the nexus headers. -/
structure ExecutorInfo where
  uri : String
  arg : String
deriving DecidableEq

/-- Task states relevant to the scheduler (`TASK_LOST` etc.). -/
inductive TaskState where
  | starting
  | running
  | finished
  | failed
  | killed
  | lost
deriving DecidableEq

/-- `TaskDescription(tid, sid, name, params, arg)`. -/
structure TaskDescription where
  taskId : TaskID
  slaveId : SlaveID
  name : String
  params : Params
  arg : String
deriving DecidableEq

/-- `TaskStatus(tid, state, data)`. -/
structure TaskStatus where
  taskId : TaskID
  state : TaskState
  data : String
deriving DecidableEq

/-- One slave's slot inside an `M2F_SLOT_OFFER`. -/
structure SlaveOffer where
  slaveId : SlaveID
  host : String
  slavePid : PID
  params : Params
deriving DecidableEq

/-- `FrameworkMessage(slaveId, taskId, data)`. -/
structure FrameworkMessage where
  slaveId : SlaveID
  taskId : TaskID
  data : String
deriving DecidableEq

/-- Modelled from the spec: the state of the reliable delivery overlay
`FTMessaging` (its implementation, `ft_messaging.cpp`, is not among the
sources; `nexus_sched.cpp` only calls it).  `acked` is the dedup record
of `(message_id, origin)` pairs already accepted; `outstanding` maps
in-flight reliable message ids to the task list captured by their
registered timeout listener. -/
structure FTMessaging where
  masterPid : PID
  counter : Nat
  acked : List (String × String)
  outstanding : List (String × List TaskDescription)
deriving DecidableEq

/-- Modelled from the spec: `setMasterPid` records the current master. -/
def FTMessaging.setMasterPid (ft : FTMessaging) (p : PID) : FTMessaging :=
  { ft with masterPid := p }

/-- Modelled from the spec: `getNextId` returns a fresh monotonically
increasing message id. -/
def FTMessaging.getNextId (ft : FTMessaging) : String × FTMessaging :=
  (toString ft.counter, { ft with counter := ft.counter + 1 })

/-- Modelled from the spec: `acceptMessageAck(id, origin)` returns true
and records the pair on its first call for a given `(id, origin)`;
subsequent calls for the same pair return false.  (The ack back to
`origin` is emitted by the caller's step, see `schedStep`.) -/
def FTMessaging.acceptMessageAck (ft : FTMessaging) (id origin : String) :
    Bool × FTMessaging :=
  if (id, origin) ∈ ft.acked then (false, ft)
  else (true, { ft with acked := (id, origin) :: ft.acked })

/-- Modelled from the spec: `reliableSend(id, payload, listener)` records
the outstanding entry; we keep the listener's captured task list. -/
def FTMessaging.reliableSend (ft : FTMessaging) (id : String)
    (listenerTasks : List TaskDescription) : FTMessaging :=
  { ft with outstanding := (id, listenerTasks) :: ft.outstanding }

/-- Modelled from the spec: `gotAck(id)` drops the outstanding entry. -/
def FTMessaging.gotAck (ft : FTMessaging) (id : String) : FTMessaging :=
  { ft with outstanding := ft.outstanding.filter fun q => !(q.1 == id) }

/-- The messages dequeued by the scheduler actor's `receive` loop, one
constructor per `case` of `SchedulerProcess::operator()`. -/
inductive Event where
  | newMasterDetected (masterSeq : String) (masterPid : PID)
  | noMasterDetected
  | registerReply (fid : FrameworkID)
  | slotOffer (oid : OfferID) (offs : List SlaveOffer)
  | f2fSlotOfferReply (oid : OfferID) (tasks : List TaskDescription) (params : Params)
  | f2fFrameworkMessage (msg : FrameworkMessage)
  | rescindOffer (oid : OfferID)
  | ftStatusUpdate (ftId : String) (origPid : String) (tid : TaskID)
      (state : TaskState) (data : String)
  | statusUpdate (tid : TaskID) (state : TaskState) (data : String)
  | ftFrameworkMessage (ftId : String) (origPid : String) (msg : FrameworkMessage)
  | frameworkMessage (msg : FrameworkMessage)
  | lostSlave (sid : SlaveID)
  | errorMsg (code : Int) (message : String)
  | processExit
  | ftRelayAck (ftId : String) (sender : String)
  | processTimeout
  | unknownMsg (msgid : Nat)
deriving DecidableEq

/-- The user callbacks `invoke`d on the `Scheduler` object. -/
inductive Callback where
  | registered (fid : FrameworkID)
  | resourceOffer (oid : OfferID) (offs : List SlaveOffer)
  | offerRescinded (oid : OfferID)
  | statusUpdate (status : TaskStatus)
  | frameworkMessage (msg : FrameworkMessage)
  | slaveLost (sid : SlaveID)
  | error (code : Int) (message : String)
deriving DecidableEq

/-- Outbound wire messages `pack`ed and `send`t by the actor. -/
inductive OutMsg where
  | registerFramework (name user : String) (execInfo : ExecutorInfo)
  | reregisterFramework (fid : FrameworkID) (name user : String) (execInfo : ExecutorInfo)
  | slotOfferReply (fid : FrameworkID) (oid : OfferID)
      (tasks : List TaskDescription) (params : Params)
  | m2sFrameworkMessage (fid : FrameworkID) (msg : FrameworkMessage)
deriving DecidableEq

/-- Observable effects of processing one event: a user callback, a
best-effort `send`, a `link`, the ack emitted for an inbound reliable
message, the registration of an outbound reliable send (with the task
list captured by its `TimeoutListener`), or an `FTMessaging` tick. -/
inductive Output where
  | callback (cb : Callback)
  | send (dst : PID) (msg : OutMsg)
  | link (pid : PID)
  | relayAck (ftId origin : String)
  | reliableSend (ftId : String) (fid : FrameworkID) (oid : OfferID)
      (tasks : List TaskDescription) (params : Params)
      (listenerTasks : List TaskDescription)
  | tick
deriving DecidableEq

/-- The scheduler actor's private state (the fields of
`SchedulerProcess` that the receive loop reads and writes). -/
structure SchedState where
  master : PID
  fid : FrameworkID
  frameworkName : String
  user : String
  execInfo : ExecutorInfo
  isFT : Bool
  ftMsg : FTMessaging
  savedOffers : List (OfferID × List (SlaveID × PID))
  savedSlavePids : List (SlaveID × PID)
deriving DecidableEq

/-- `FTMessaging::getInstance()` as first obtained by the constructor. -/
def FTMessaging.initial : FTMessaging :=
  { masterPid := "", counter := 0, acked := [], outstanding := [] }

/-- The state of a freshly constructed `SchedulerProcess`: empty
framework id, empty offer and slave tables. -/
def initState (isFT : Bool) (frameworkName user : String)
    (execInfo : ExecutorInfo) (master : PID) : SchedState :=
  { master := master, fid := "", frameworkName := frameworkName, user := user,
    execInfo := execInfo, isFT := isFT, ftMsg := FTMessaging.initial,
    savedOffers := [], savedSlavePids := [] }

/-- The `M2F_SLOT_OFFER` loop: `savedOffers[oid][offer.slaveId] =
offer.slavePid` for each slot of the offer. -/
def slotOfferSave (oid : OfferID) :
    List SlaveOffer → List (OfferID × List (SlaveID × PID)) →
      List (OfferID × List (SlaveID × PID))
  | [], so => so
  | off :: offs, so =>
      slotOfferSave oid offs
        (aset (aidx so oid).2 oid (aset (aidx so oid).1 off.slaveId off.slavePid))

/-- The `F2F_SLOT_OFFER_REPLY` loop: `savedSlavePids[task.slaveId] =
savedOffers[oid][task.slaveId]` for each task, where both subscripts are
C++ `operator[]` (so absent keys are default-inserted). -/
def saveTaskPids (so : List (OfferID × List (SlaveID × PID)))
    (sp : List (SlaveID × PID)) (oid : OfferID) :
    List TaskDescription →
      List (OfferID × List (SlaveID × PID)) × List (SlaveID × PID)
  | [] => (so, sp)
  | t :: ts =>
      saveTaskPids
        (aset (aidx so oid).2 oid (aidx (aidx so oid).1 t.slaveId).2)
        (aset sp t.slaveId (aidx (aidx so oid).1 t.slaveId).1) oid ts

/-- `TimeoutListener::timeout()`: posts to the actor itself one synthetic
`M2F_STATUS_UPDATE(t.taskId, TASK_LOST, "")` per captured task, in task
list order. -/
def TimeoutListener.timeout (tasks : List TaskDescription) : List Event :=
  tasks.map fun t => Event.statusUpdate t.taskId TaskState.lost ""

/-- One iteration of the dispatch `switch` of
`SchedulerProcess::operator()`: the successor state and the list of
observable effects, in program order. -/
def schedStep (s : SchedState) (e : Event) : SchedState × List Output :=
  match e with
  | .newMasterDetected _ masterPid =>
      let s1 := { s with master := masterPid,
                         ftMsg := s.ftMsg.setMasterPid masterPid }
      let reg :=
        if s.fid = "" then
          Output.send masterPid (.registerFramework s.frameworkName s.user s.execInfo)
        else
          Output.send masterPid
            (.reregisterFramework s.fid s.frameworkName s.user s.execInfo)
      (s1, [Output.link masterPid, reg])
  | .noMasterDetected => (s, [])
  | .registerReply fid =>
      ({ s with fid := fid }, [Output.callback (.registered fid)])
  | .slotOffer oid offs =>
      ({ s with savedOffers := slotOfferSave oid offs s.savedOffers },
       [Output.callback (.resourceOffer oid offs)])

  | .f2fSlotOfferReply oid tasks params =>
      let r := saveTaskPids s.savedOffers s.savedSlavePids oid tasks
      if s.isFT then
        ({ s with savedOffers := aerase r.1 oid, savedSlavePids := r.2,
                  ftMsg := (s.ftMsg.getNextId).2.reliableSend (s.ftMsg.getNextId).1 tasks },
         [Output.reliableSend (s.ftMsg.getNextId).1 s.fid oid tasks params tasks])
      else
        ({ s with savedOffers := aerase r.1 oid, savedSlavePids := r.2 },
         [Output.send s.master (.slotOfferReply s.fid oid tasks params)])
  | .f2fFrameworkMessage msg =>
      ({ s with savedSlavePids := (aidx s.savedSlavePids msg.slaveId).2 },
       [Output.send (aidx s.savedSlavePids msg.slaveId).1
          (.m2sFrameworkMessage s.fid msg)])
  | .rescindOffer oid =>
      ({ s with savedOffers := aerase s.savedOffers oid },
       [Output.callback (.offerRescinded oid)])
  | .ftStatusUpdate ftId origPid tid state data =>
      let r := s.ftMsg.acceptMessageAck ftId origPid
      if r.1 then
        ({ s with ftMsg := r.2 },
         [Output.relayAck ftId origPid,
          Output.callback (.statusUpdate ⟨tid, state, data⟩)])
      else
        ({ s with ftMsg := r.2 }, [Output.relayAck ftId origPid])
  | .statusUpdate tid state data =>
      (s, [Output.callback (.statusUpdate ⟨tid, state, data⟩)])
  | .ftFrameworkMessage ftId origPid msg =>
      let r := s.ftMsg.acceptMessageAck ftId origPid
      if r.1 then
        ({ s with ftMsg := r.2 },
         [Output.relayAck ftId origPid,
          Output.callback (.frameworkMessage msg)])
      else
        ({ s with ftMsg := r.2 }, [Output.relayAck ftId origPid])
  | .frameworkMessage msg =>
      (s, [Output.callback (.frameworkMessage msg)])
  | .lostSlave sid =>
      ({ s with savedSlavePids := aerase s.savedSlavePids sid },
       [Output.callback (.slaveLost sid)])
  | .errorMsg code message =>
      (s, [Output.callback (.error code message)])
  | .processExit =>
      if s.isFT then (s, [])
      else (s, [Output.callback (.error (-1) "Connection to master failed")])
  | .ftRelayAck ftId _ =>
      ({ s with ftMsg := s.ftMsg.gotAck ftId }, [])
  | .processTimeout => (s, [Output.tick])
  | .unknownMsg msgid =>
      (s, [Output.callback
            (.error (-1) ("SchedulerProcess received unknown message " ++ toString msgid))])

/-- Run the actor over a list of dequeued events, returning the final
state. -/
def runEvents (s : SchedState) : List Event → SchedState
  | [] => s
  | e :: es => runEvents (schedStep s e).1 es

/-- Run the actor over a list of dequeued events, returning all
observable effects in order. -/
def runOutputs : SchedState → List Event → List Output
  | _, [] => []
  | s, e :: es => (schedStep s e).2 ++ runOutputs (schedStep s e).1 es

/-- The `while(true)` loop of `SchedulerProcess::operator()`: at every
iteration boundary the `terminate` flag is read first (the `Bool`
component of each input, recording the value observed at that boundary);
if it is true the loop returns at once, otherwise the next event is
received and dispatched. -/
def actorLoop : SchedState → List (Bool × Event) → List Output
  | _, [] => []
  | s, (term, e) :: rest =>
      if term then []
      else (schedStep s e).2 ++ actorLoop (schedStep s e).1 rest

/-- The driver facade state relevant to its lifecycle: the `running`
flag of `NexusSchedulerDriver` and the `terminate` flag of the scheduler
process it currently owns. -/
structure DriverState where
  running : Bool
  procTerminate : Bool
deriving DecidableEq

/-- `NexusSchedulerDriver::start()`: fails with -1 if already running,
otherwise constructs a fresh `SchedulerProcess` (whose `terminate` flag
is initialised to false), spawns it, sets `running` and returns 0. -/
def NexusSchedulerDriver.start (d : DriverState) : Int × DriverState :=
  if d.running then (-1, d)
  else (0, { running := true, procTerminate := false })

/-- `NexusSchedulerDriver::stop()`: fails with -1 if not running,
otherwise sends a best-effort `F2M_UNREGISTER_FRAMEWORK`, sets the
process's `terminate` flag, clears `running`, signals the join
condition and returns 0. -/
def NexusSchedulerDriver.stop (d : DriverState) : Int × DriverState :=
  if !d.running then (-1, d)
  else (0, { d with running := false, procTerminate := true })

/-- Number of user callbacks among a list of outputs. -/
def cbCount (outs : List Output) : Nat :=
  (outs.filter fun o =>
    match o with
    | .callback _ => true
    | _ => false).length

/-- The `(message_id, origin)` pair carried by an inbound fault-tolerant
message, if the event is one. -/
def eventFTPair : Event → Option (String × String)
  | .ftStatusUpdate ftId origPid _ _ _ => some (ftId, origPid)
  | .ftFrameworkMessage ftId origPid _ => some (ftId, origPid)
  | _ => none

/-- Number of user callbacks emitted, along a run of the actor, while
processing fault-tolerant messages carrying the pair `p`. -/
def ftHits (p : String × String) : SchedState → List Event → Nat
  | _, [] => 0
  | s, e :: es =>
      (if eventFTPair e = some p then cbCount (schedStep s e).2 else 0)
      + ftHits p (schedStep s e).1 es

/-- Specification-side bookkeeping for the offer table: whether, after
one more event, a slot offer for `oid` has been delivered (with at
least one slot) and neither replied to nor rescinded since. -/
def offerLiveStep (oid : OfferID) (b : Bool) (e : Event) : Bool :=
  match e with
  | .slotOffer oid2 offs => if oid2 = oid then (if offs.isEmpty then b else true) else b
  | .f2fSlotOfferReply oid2 _ _ => if oid2 = oid then false else b
  | .rescindOffer oid2 => if oid2 = oid then false else b
  | _ => b

/-- Whether, after the whole trace, the offer `oid` has been delivered
and neither replied to nor rescinded since. -/
def offerLive (oid : OfferID) (tr : List Event) : Bool :=
  tr.foldl (offerLiveStep oid) false

/-- A concrete non-fault-tolerant scheduler start state, used for the
closed evaluations below. -/
def demoState : SchedState := initState false "fw" "user" ⟨"", ""⟩ "master-1"

/-- A concrete fault-tolerant (coordinated-mode) scheduler start state. -/
def demoStateFT : SchedState := initState true "fw" "user" ⟨"", ""⟩ ""

/-- A concrete task description. -/
def demoTask (tid : TaskID) (sid : SlaveID) : TaskDescription :=
  ⟨tid, sid, "task", [], ""⟩

end NexusSched

namespace MesosValidation

/-- `NAME_MAX` from `limits.h` (255 on the build platform). -/
def NAME_MAX : Nat := 255

/-- `iscntrl` in the C locale over the ASCII range: code points below 32
and 127 (DEL) are control characters. -/
def iscntrl (c : Char) : Bool :=
  c.toNat < 32 || c.toNat == 127

/-- The `invalidCharacter` lambda of `validateID`: control characters and
the POSIX (`/`) and Windows (`\`) path separators. -/
def invalidCharacter (c : Char) : Bool :=
  iscntrl c || c == '/' || c == '\\'

/-- `mesos::internal::common::validation::validateID`: `some err` is the
`Error` case, `none` is `None()` (the id is accepted). -/
def validateID (id : String) : Option String :=
  if id = "" then some "ID must not be empty"
  else if id.length > NAME_MAX then
    some "ID must not be greater than NAME_MAX characters"
  else if id = "." then some "id is disallowed"
  else if id = ".." then some "id is disallowed"
  else if id.toList.any invalidCharacter then
    some "id contains invalid characters"
  else none

/-- The `Secret::Type` protobuf enum. -/
inductive SecretType where
  | reference
  | value
  | unknown
deriving DecidableEq

/-- A `Secret` protobuf message: `reference` is `some name` iff
`has_reference()` (carrying `reference().name()`), `value` is
`some data` iff `has_value()`. -/
structure Secret where
  type : SecretType
  reference : Option String
  value : Option String
deriving DecidableEq

/-- `mesos::internal::common::validation::validateSecret`. -/
def validateSecret (s : Secret) : Option String :=
  match s.type with
  | .reference =>
      if s.reference.isNone then
        some "Secret of type REFERENCE must have the reference field set"
      else if s.value.isSome then
        some "Secret of type REFERENCE must not have the value field set"
      else none
  | .value =>
      if s.value.isNone then
        some "Secret of type VALUE must have the value field set"
      else if s.reference.isSome then
        some "Secret of type VALUE must not have the reference field set"
      else none
  | .unknown => none

end MesosValidation

namespace NexusSched

theorem aget?_aset_self [DecidableEq α] (m : List (α × β)) (k : α) (v : β) :
    aget? (aset m k v) k = some v := by
  induction m with
  | nil => simp [aset, aget?]
  | cons q rest ih =>
      by_cases h : q.1 = k
      · simp [aset, h, aget?]
      · simp [aset, h, aget?, ih]

theorem aget?_aset_ne [DecidableEq α] (m : List (α × β)) (k2 k : α) (v : β)
    (h : k2 ≠ k) : aget? (aset m k2 v) k = aget? m k := by
  induction m with
  | nil => simp [aset, aget?, h]
  | cons q rest ih =>
      by_cases hq : q.1 = k2
      · rw [aset, if_pos hq, aget?, if_neg h, aget?, if_neg (hq.symm ▸ h)]
      · rw [aset, if_neg hq, aget?, aget?, ih]

theorem aget?_aerase_self [DecidableEq α] (m : List (α × β)) (k : α) :
    aget? (aerase m k) k = none := by
  induction m with
  | nil => rfl
  | cons q rest ih =>
      by_cases h : q.1 = k
      · rw [aerase, if_pos h]; exact ih
      · rw [aerase, if_neg h, aget?, if_neg h]; exact ih

theorem aget?_aerase_ne [DecidableEq α] (m : List (α × β)) (k2 k : α)
    (h : k2 ≠ k) : aget? (aerase m k2) k = aget? m k := by
  induction m with
  | nil => rfl
  | cons q rest ih =>
      by_cases hq : q.1 = k2
      · rw [aerase, if_pos hq, ih, aget?, if_neg (hq.symm ▸ h)]
      · rw [aerase, if_neg hq, aget?, aget?, ih]

theorem aget?_aidx_snd_ne [DecidableEq α] [Inhabited β] (m : List (α × β))
    (k2 k : α) (h : k2 ≠ k) : aget? (aidx m k2).2 k = aget? m k := by
  simp only [aidx]
  cases hm : aget? m k2 with
  | none => simpa using aget?_aset_ne m k2 k default h
  | some v => rfl

theorem aget?_aidx_snd_self_isSome [DecidableEq α] [Inhabited β]
    (m : List (α × β)) (k : α) : (aget? (aidx m k).2 k).isSome = true := by
  simp only [aidx]
  cases hm : aget? m k with
  | none => simp [aget?_aset_self]
  | some v => simp [hm]

theorem saveTaskPids_aget?_ne (tasks : List TaskDescription)
    (so : List (OfferID × List (SlaveID × PID))) (sp : List (SlaveID × PID))
    (oid k : OfferID) (h : oid ≠ k) :
    aget? (saveTaskPids so sp oid tasks).1 k = aget? so k := by
  induction tasks generalizing so sp with
  | nil => rfl
  | cons t ts ih =>
      rw [saveTaskPids, ih, aget?_aset_ne _ _ _ _ h, aget?_aidx_snd_ne _ _ _ h]

theorem slotOfferSave_aget?_ne (oid k : OfferID) (offs : List SlaveOffer)
    (so : List (OfferID × List (SlaveID × PID))) (h : oid ≠ k) :
    aget? (slotOfferSave oid offs so) k = aget? so k := by
  induction offs generalizing so with
  | nil => rfl
  | cons off offs ih =>
      rw [slotOfferSave, ih, aget?_aset_ne _ _ _ _ h, aget?_aidx_snd_ne _ _ _ h]

theorem slotOfferSave_aget?_self_isSome (oid : OfferID) (offs : List SlaveOffer)
    (so : List (OfferID × List (SlaveID × PID))) :
    (aget? (slotOfferSave oid offs so) oid).isSome
      = (!offs.isEmpty || (aget? so oid).isSome) := by
  induction offs generalizing so with
  | nil => simp [slotOfferSave]
  | cons off offs ih =>
      rw [slotOfferSave, ih, aget?_aset_self]
      simp

/-- C3: for any scheduler state, processing a `M2F_RESCIND_OFFER` for
`oid` or an `F2F_SLOT_OFFER_REPLY` replying to `oid` leaves
`savedOffers` with no entry for `oid` (both cases call
`savedOffers.erase(oid)`). -/
theorem saved_offers_removed_on_reply_or_rescind (s : SchedState)
    (oid : OfferID) (tasks : List TaskDescription) (params : Params) :
    aget? (schedStep s (.rescindOffer oid)).1.savedOffers oid = none ∧
    aget? (schedStep s (.f2fSlotOfferReply oid tasks params)).1.savedOffers oid = none := by
  refine ⟨aget?_aerase_self _ _, ?_⟩
  simp only [schedStep]
  cases hFT : s.isFT <;> simp [hFT, aget?_aerase_self]

/-- C5: the receive loop reads the `terminate` flag at every iteration
boundary (the `Bool` component of each input to `actorLoop`), and once
the flag is observed true, the remaining inputs contribute no output at
all: in particular no further user callback is invoked. -/
theorem actor_stops_after_terminate (s : SchedState)
    (xs : List (Bool × Event)) (e : Event) (rest : List (Bool × Event)) :
    actorLoop s (xs ++ (true, e) :: rest) = actorLoop s xs := by
  induction xs generalizing s with
  | nil => rfl
  | cons q xs ih =>
      obtain ⟨b, e2⟩ := q
      cases b
      · simp only [List.cons_append, actorLoop, List.append_eq,
          Bool.false_eq_true, if_false]
        rw [ih]
      · rfl

/-- C6 counterexample: `M2F_REGISTER_REPLY` unconditionally overwrites
`fid` (`unpack<M2F_REGISTER_REPLY>(fid)`), so after `fid` was assigned
the non-empty value "a", a later reply carrying "b" changes it to "b". -/
theorem fid_overwritten_cex :
    (runEvents demoState [Event.registerReply "a"]).fid = "a" ∧
    (runEvents demoState [Event.registerReply "a"]).fid ≠ "" ∧
    (runEvents demoState
      [Event.registerReply "a", Event.registerReply "b"]).fid = "b" := by
  decide

/-- C6 amended: `fid` is modified only by `M2F_REGISTER_REPLY` events,
each of which sets it to exactly the id carried by the reply; hence the
identity never changes once assigned provided every later reply carries
the same id, but a reply carrying a different id does change it. -/
theorem fid_changes_only_on_register_reply (s : SchedState) (e : Event) :
    (schedStep s e).1.fid =
      match e with
      | .registerReply fid => fid
      | _ => s.fid := by
  cases e <;> simp only [schedStep] <;> (try split) <;> rfl

/-- C7 counterexample: an `F2F_FRAMEWORK_MESSAGE` for a slave with no
`savedSlavePids` entry is not state-preserving: the C++
`savedSlavePids[msg.slaveId]` lookup default-inserts a null PID entry
for that slave, so `savedSlavePids` changes. -/
theorem unknown_slave_inserts_entry_cex :
    (schedStep demoState
        (.f2fFrameworkMessage ⟨"s9", 1, "payload"⟩)).1.savedSlavePids
      ≠ demoState.savedSlavePids ∧
    (schedStep demoState
        (.f2fFrameworkMessage ⟨"s9", 1, "payload"⟩)).1.savedSlavePids
      = [("s9", "")] := by
  decide

/-- C7 amended: when `msg.slave_id` has no `savedSlavePids` entry the
message is sent to the null PID (a best-effort send the transport
drops) and no user callback — in particular no `error` — is invoked;
however `savedSlavePids` gains a default (null PID) entry for
`msg.slave_id`, and nothing else in the state changes. -/
theorem unknown_slave_message_dropped (s : SchedState) (msg : FrameworkMessage)
    (h : aget? s.savedSlavePids msg.slaveId = none) :
    (schedStep s (.f2fFrameworkMessage msg)).2
      = [Output.send "" (.m2sFrameworkMessage s.fid msg)] ∧
    cbCount (schedStep s (.f2fFrameworkMessage msg)).2 = 0 ∧
    (schedStep s (.f2fFrameworkMessage msg)).1
      = { s with savedSlavePids := aset s.savedSlavePids msg.slaveId "" } := by
  have ha : aidx s.savedSlavePids msg.slaveId
      = ("", aset s.savedSlavePids msg.slaveId "") := by
    simp [aidx, h]
  simp [schedStep, ha, cbCount]

/-- Witness for the amended C7 at a concrete state and message. -/
theorem unknown_slave_message_dropped_witness :
    (schedStep demoState (.f2fFrameworkMessage ⟨"s9", 1, "payload"⟩)).2
      = [Output.send "" (.m2sFrameworkMessage demoState.fid ⟨"s9", 1, "payload"⟩)] ∧
    cbCount (schedStep demoState (.f2fFrameworkMessage ⟨"s9", 1, "payload"⟩)).2 = 0 ∧
    (schedStep demoState (.f2fFrameworkMessage ⟨"s9", 1, "payload"⟩)).1
      = { demoState with savedSlavePids := aset demoState.savedSlavePids "s9" "" } :=
  unknown_slave_message_dropped demoState ⟨"s9", 1, "payload"⟩ (by decide)

/-- C8 counterexample: `stop()` clears `running`, and `start()` only
fails while `running` is set, so after `start(); stop()` (both
returning 0) a second `start()` returns 0, not -1: the lifecycle is not
single-shot. -/
theorem restart_after_stop_succeeds_cex :
    (NexusSchedulerDriver.start ⟨false, false⟩).1 = 0 ∧
    (NexusSchedulerDriver.stop
        (NexusSchedulerDriver.start ⟨false, false⟩).2).1 = 0 ∧
    (NexusSchedulerDriver.start
        (NexusSchedulerDriver.stop
          (NexusSchedulerDriver.start ⟨false, false⟩).2).2).1 = 0 ∧
    (0 : Int) ≠ -1 := by
  decide

/-- C8 amended: `start` fails with -1 only while the driver is running.
From any non-running driver, `start` returns 0, the following `stop`
returns 0, and a second `start` returns 0 again (spawning a fresh
scheduler process) rather than failing. -/
theorem start_stop_start_returns_zero (d : DriverState)
    (h : d.running = false) :
    (NexusSchedulerDriver.start d).1 = 0 ∧
    (NexusSchedulerDriver.stop (NexusSchedulerDriver.start d).2).1 = 0 ∧
    (NexusSchedulerDriver.start
        (NexusSchedulerDriver.stop (NexusSchedulerDriver.start d).2).2).1 = 0 := by
  simp [NexusSchedulerDriver.start, NexusSchedulerDriver.stop, h]

/-- Witness for the amended C8 at a concrete driver state. -/
theorem start_stop_start_returns_zero_witness :
    (NexusSchedulerDriver.start ⟨false, true⟩).1 = 0 ∧
    (NexusSchedulerDriver.stop (NexusSchedulerDriver.start ⟨false, true⟩).2).1 = 0 ∧
    (NexusSchedulerDriver.start
        (NexusSchedulerDriver.stop
          (NexusSchedulerDriver.start ⟨false, true⟩).2).2).1 = 0 :=
  start_stop_start_returns_zero ⟨false, true⟩ rfl

end NexusSched

namespace NexusSched

theorem runOutputs_timeout (s : SchedState) (tasks : List TaskDescription) :
    runOutputs s (TimeoutListener.timeout tasks)
      = tasks.map fun t =>
          Output.callback (.statusUpdate ⟨t.taskId, TaskState.lost, ""⟩) := by
  induction tasks generalizing s with
  | nil => rfl
  | cons t ts ih =>
      show runOutputs s
          (Event.statusUpdate t.taskId TaskState.lost ""
            :: TimeoutListener.timeout ts) = _
      simp only [runOutputs, schedStep, ih, List.map]
      rfl

/-- C2: in coordinated (fault-tolerant) mode, replying to an offer
registers a reliable send whose `TimeoutListener` captures exactly the
reply's task list; firing the listener posts one synthetic
`M2F_STATUS_UPDATE(t.taskId, TASK_LOST, "")` event per task in
task-list order, and dispatching those events from any actor state
delivers exactly one `statusUpdate({tid, Lost, ""})` user callback per
task, in order, through the ordinary `M2F_STATUS_UPDATE` path. -/
theorem ft_timeout_synthetic_lost (s s2 : SchedState) (oid : OfferID)
    (tasks : List TaskDescription) (params : Params) (h : s.isFT = true) :
    (schedStep s (.f2fSlotOfferReply oid tasks params)).2
      = [Output.reliableSend (toString s.ftMsg.counter) s.fid oid tasks params tasks] ∧
    TimeoutListener.timeout tasks
      = tasks.map (fun t => Event.statusUpdate t.taskId TaskState.lost "") ∧
    runOutputs s2 (TimeoutListener.timeout tasks)
      = tasks.map fun t =>
          Output.callback (.statusUpdate ⟨t.taskId, TaskState.lost, ""⟩) := by
  refine ⟨?_, rfl, runOutputs_timeout s2 tasks⟩
  simp [schedStep, h, FTMessaging.getNextId]

/-- Witness for C2 at a concrete coordinated-mode state and a two-task
reply. -/
theorem ft_timeout_synthetic_lost_witness :
    (schedStep demoStateFT
        (.f2fSlotOfferReply "o5" [demoTask 7 "s1", demoTask 8 "s2"] [])).2
      = [Output.reliableSend (toString demoStateFT.ftMsg.counter)
          demoStateFT.fid "o5" [demoTask 7 "s1", demoTask 8 "s2"] []
          [demoTask 7 "s1", demoTask 8 "s2"]] ∧
    TimeoutListener.timeout [demoTask 7 "s1", demoTask 8 "s2"]
      = [demoTask 7 "s1", demoTask 8 "s2"].map
          (fun t => Event.statusUpdate t.taskId TaskState.lost "") ∧
    runOutputs demoStateFT
        (TimeoutListener.timeout [demoTask 7 "s1", demoTask 8 "s2"])
      = [demoTask 7 "s1", demoTask 8 "s2"].map fun t =>
          Output.callback (.statusUpdate ⟨t.taskId, TaskState.lost, ""⟩) :=
  ft_timeout_synthetic_lost demoStateFT demoStateFT "o5"
    [demoTask 7 "s1", demoTask 8 "s2"] [] rfl

theorem acceptMessageAck_acked_mono (ft : FTMessaging) (id origin : String)
    (p : String × String) (h : p ∈ ft.acked) :
    p ∈ (ft.acceptMessageAck id origin).2.acked := by
  unfold FTMessaging.acceptMessageAck
  split
  · exact h
  · exact List.mem_cons_of_mem _ h

theorem acceptMessageAck_mem_after (ft : FTMessaging) (id origin : String) :
    (id, origin) ∈ (ft.acceptMessageAck id origin).2.acked := by
  unfold FTMessaging.acceptMessageAck
  split
  · next hmem => exact hmem
  · exact List.mem_cons_self _ _

theorem acceptMessageAck_false_of_mem (ft : FTMessaging) (id origin : String)
    (h : (id, origin) ∈ ft.acked) :
    (ft.acceptMessageAck id origin).1 = false := by
  unfold FTMessaging.acceptMessageAck
  rw [if_pos h]

theorem acceptMessageAck_true_of_not_mem (ft : FTMessaging) (id origin : String)
    (h : (id, origin) ∉ ft.acked) :
    (ft.acceptMessageAck id origin).1 = true := by
  unfold FTMessaging.acceptMessageAck
  rw [if_neg h]

theorem schedStep_acked_mono (s : SchedState) (e : Event) (p : String × String)
    (h : p ∈ s.ftMsg.acked) : p ∈ (schedStep s e).1.ftMsg.acked := by
  cases e <;>
    first
      | exact h
      | (simp only [schedStep]
         split <;>
           first
             | exact h
             | exact acceptMessageAck_acked_mono _ _ _ _ h)

theorem ftHits_zero_of_mem (p : String × String) (es : List Event)
    (s : SchedState) (h : p ∈ s.ftMsg.acked) : ftHits p s es = 0 := by
  induction es generalizing s with
  | nil => rfl
  | cons e es ih =>
      rw [ftHits, ih _ (schedStep_acked_mono s e p h), Nat.add_zero]
      by_cases hp : eventFTPair e = some p
      · rw [if_pos hp]
        obtain ⟨p1, p2⟩ := p
        cases e <;> simp only [eventFTPair, Option.some.injEq, Prod.mk.injEq,
          reduceCtorEq] at hp
        all_goals
          obtain ⟨h1, h2⟩ := hp
          subst h1
          subst h2
          have hacc := acceptMessageAck_false_of_mem _ _ _ h
          simp [schedStep, hacc, cbCount]
      · rw [if_neg hp]

/-- C1: along any run of the scheduler actor, at most one user callback
is ever invoked for fault-tolerant messages carrying a given
`(message_id, origin)` pair, no matter how many duplicate
`M2F_FT_STATUS_UPDATE` / `M2F_FT_FRAMEWORK_MESSAGE` events are
dequeued: the callback fires only when `acceptMessageAck` returns true,
which happens only on the first call for the pair. -/
theorem ft_at_most_once (p : String × String) (s : SchedState)
    (es : List Event) : ftHits p s es ≤ 1 := by
  obtain ⟨p1, p2⟩ := p
  induction es generalizing s with
  | nil => exact Nat.zero_le 1
  | cons e es ih =>
      rw [ftHits]
      by_cases hp : eventFTPair e = some (p1, p2)
      · rw [if_pos hp]
        by_cases hmem : (p1, p2) ∈ s.ftMsg.acked
        · rw [ftHits_zero_of_mem _ _ _ (schedStep_acked_mono s e _ hmem),
            Nat.add_zero]
          cases e <;> simp only [eventFTPair, Option.some.injEq, Prod.mk.injEq,
            reduceCtorEq] at hp
          all_goals
            obtain ⟨h1, h2⟩ := hp
            subst h1
            subst h2
            have hacc := acceptMessageAck_false_of_mem _ _ _ hmem
            simp [schedStep, hacc, cbCount]
        · cases e <;> simp only [eventFTPair, Option.some.injEq, Prod.mk.injEq,
            reduceCtorEq] at hp
          all_goals
            obtain ⟨h1, h2⟩ := hp
            subst h1
            subst h2
            have hacc := acceptMessageAck_true_of_not_mem _ _ _ hmem
            rw [ftHits_zero_of_mem _ _ _
                (by
                  simp only [schedStep, hacc, if_true]
                  exact acceptMessageAck_mem_after _ _ _),
              Nat.add_zero]
            simp [schedStep, hacc, cbCount]
      · rw [if_neg hp, Nat.zero_add]
        exact ih _

end NexusSched

namespace MesosValidation

/-- C10: `validateSecret` accepts every `Secret` of type `UNKNOWN`
regardless of whether its `reference` or `value` fields are set; the
reference/value exclusivity checks are applied only in the `REFERENCE`
and `VALUE` cases of the switch. -/
theorem validateSecret_unknown_ok (s : Secret)
    (h : s.type = SecretType.unknown) : validateSecret s = none := by
  unfold validateSecret
  rw [h]

/-- Witness for C10: an UNKNOWN-typed secret with both fields set still
validates. -/
theorem validateSecret_unknown_ok_witness :
    validateSecret ⟨SecretType.unknown, some "ref", some "val"⟩ = none :=
  validateSecret_unknown_ok ⟨SecretType.unknown, some "ref", some "val"⟩ rfl

end MesosValidation

namespace NexusSched

theorem schedStep_savedOffers_isSome (s : SchedState) (e : Event) (oid : OfferID) :
    (aget? (schedStep s e).1.savedOffers oid).isSome
      = offerLiveStep oid ((aget? s.savedOffers oid).isSome) e := by
  cases e with
  | newMasterDetected a b => rfl
  | noMasterDetected => rfl
  | registerReply a => rfl
  | slotOffer oid2 offs =>
      simp only [schedStep, offerLiveStep]
      by_cases h : oid2 = oid
      · subst h
        rw [slotOfferSave_aget?_self_isSome, if_pos rfl]
        cases hoff : offs.isEmpty <;> simp [hoff]
      · rw [slotOfferSave_aget?_ne _ _ _ _ h, if_neg h]
  | f2fSlotOfferReply oid2 tasks params =>
      simp only [schedStep, offerLiveStep]
      split
      all_goals
        by_cases h : oid2 = oid
        · subst h
          simp [aget?_aerase_self]
        · rw [aget?_aerase_ne _ _ _ h, saveTaskPids_aget?_ne _ _ _ _ _ h, if_neg h]
  | f2fFrameworkMessage msg => rfl
  | rescindOffer oid2 =>
      simp only [schedStep, offerLiveStep]
      by_cases h : oid2 = oid
      · subst h
        simp [aget?_aerase_self]
      · rw [aget?_aerase_ne _ _ _ h, if_neg h]
  | ftStatusUpdate a b c d f =>
      simp only [schedStep, offerLiveStep]
      split <;> rfl
  | statusUpdate a b c => rfl
  | ftFrameworkMessage a b c =>
      simp only [schedStep, offerLiveStep]
      split <;> rfl
  | frameworkMessage msg => rfl
  | lostSlave sid => rfl
  | errorMsg a b => rfl
  | processExit =>
      simp only [schedStep, offerLiveStep]
      split <;> rfl
  | ftRelayAck a b => rfl
  | processTimeout => rfl
  | unknownMsg a => rfl

theorem runEvents_savedOffers_isSome (tr : List Event) (s : SchedState)
    (oid : OfferID) :
    (aget? (runEvents s tr).savedOffers oid).isSome
      = tr.foldl (offerLiveStep oid) ((aget? s.savedOffers oid).isSome) := by
  induction tr generalizing s with
  | nil => rfl
  | cons e tr ih =>
      rw [runEvents, List.foldl_cons, ← schedStep_savedOffers_isSome]
      exact ih _

/-- C4 counterexample: an offer delivered before a `NEW_MASTER_DETECTED`
event is still present in `savedOffers` afterwards: the
`NEW_MASTER_DETECTED` case relinks and (re)registers but never touches
`savedOffers`, contradicting the claim that observing a master change
removes the offer (and in particular that the event clears the table). -/
theorem saved_offers_survive_new_master_cex :
    aget? (runEvents demoState
        [Event.slotOffer "o1" [⟨"s1", "h1", "pid1", []⟩],
         Event.newMasterDetected "1" "m2"]).savedOffers "o1"
      = some [("s1", "pid1")] ∧
    aget? (runEvents demoState
        [Event.slotOffer "o1" [⟨"s1", "h1", "pid1", []⟩],
         Event.newMasterDetected "1" "m2"]).savedOffers "o1"
      ≠ none := by
  decide

/-- C4 amended: from the initial state, an `OfferID` is a key of
`savedOffers` after a trace iff a slot offer for it carrying at least
one slot has been delivered and neither an offer reply nor a rescind
for it has been processed since (`offerLive`); a master change does not
invalidate it: processing `NEW_MASTER_DETECTED` leaves `savedOffers`
entirely unchanged. -/
theorem saved_offers_iff_live :
    (∀ (tr : List Event) (oid : OfferID) (fl : Bool) (fn u : String)
        (ei : ExecutorInfo) (m : PID),
      (aget? (runEvents (initState fl fn u ei m) tr).savedOffers oid).isSome
        = offerLive oid tr) ∧
    (∀ (s : SchedState) (seq : String) (pid : PID),
      (schedStep s (.newMasterDetected seq pid)).1.savedOffers
        = s.savedOffers) := by
  constructor
  · intro tr oid fl fn u ei m
    rw [runEvents_savedOffers_isSome, offerLive]
    rfl
  · intro s seq pid
    rfl

end NexusSched

namespace MesosValidation

/-- C9: `validateID` accepts an id iff it is non-empty, of length at
most `NAME_MAX`, neither "." nor "..", and free of control characters
and path separators; consequently an id of length exactly `NAME_MAX`
meeting the character rules is accepted, and every id of length
`NAME_MAX + 1` is rejected. -/
theorem validateID_spec :
    (∀ id : String, validateID id = none ↔
      (id ≠ "" ∧ id.length ≤ NAME_MAX ∧ id ≠ "." ∧ id ≠ ".." ∧
        ∀ c ∈ id.toList, iscntrl c = false ∧ c ≠ '/' ∧ c ≠ '\\')) ∧
    (∀ id : String, id.length = NAME_MAX →
      (∀ c ∈ id.toList, iscntrl c = false ∧ c ≠ '/' ∧ c ≠ '\\') →
      validateID id = none) ∧
    (∀ id : String, id.length = NAME_MAX + 1 → validateID id ≠ none) := by
  have hmain : ∀ id : String, validateID id = none ↔
      (id ≠ "" ∧ id.length ≤ NAME_MAX ∧ id ≠ "." ∧ id ≠ ".." ∧
        ∀ c ∈ id.toList, iscntrl c = false ∧ c ≠ '/' ∧ c ≠ '\\') := by
    intro id
    unfold validateID
    split_ifs with h1 h2 h3 h4 h5
    · simp [h1]
    · have hn : ¬ id.length ≤ NAME_MAX := Nat.not_le.mpr h2
      simp [hn]
    · simp [h3]
    · simp [h4]
    · constructor
      · intro hx
        exact absurd hx (by simp)
      · rintro ⟨-, -, -, -, hall⟩
        rw [List.any_eq_true] at h5
        obtain ⟨c, hc, hinv⟩ := h5
        obtain ⟨hcn, hs1, hs2⟩ := hall c hc
        simp [invalidCharacter, hcn, hs1, hs2] at hinv
    · refine iff_of_true rfl ⟨h1, Nat.not_lt.mp h2, h3, h4, ?_⟩
      intro c hc
      have h5f : id.toList.any invalidCharacter = false :=
        Bool.eq_false_iff.mpr h5
      rw [List.any_eq_false] at h5f
      have hcf : invalidCharacter c = false :=
        Bool.eq_false_iff.mpr (h5f c hc)
      simp only [invalidCharacter, Bool.or_eq_false_iff,
        beq_eq_false_iff_ne] at hcf
      exact ⟨hcf.1.1, hcf.1.2, hcf.2⟩
  refine ⟨hmain, ?_, ?_⟩
  · intro id hlen hch
    refine (hmain id).mpr ⟨?_, Nat.le_of_eq hlen, ?_, ?_, hch⟩
    · intro he
      rw [he] at hlen
      exact absurd hlen (by decide)
    · intro he
      rw [he] at hlen
      exact absurd hlen (by decide)
    · intro he
      rw [he] at hlen
      exact absurd hlen (by decide)
  · intro id hlen hcontra
    have hle := ((hmain id).mp hcontra).2.1
    rw [hlen] at hle
    exact absurd hle (by decide)

set_option maxRecDepth 8192 in
/-- Witness for C9: the 255-character id aaa…a is accepted and the
256-character one is rejected. -/
theorem validateID_spec_witness :
    validateID (String.mk (List.replicate NAME_MAX 'a')) = none ∧
    validateID (String.mk (List.replicate (NAME_MAX + 1) 'a')) ≠ none :=
  ⟨validateID_spec.2.1 _ (by decide) (by decide),
   validateID_spec.2.2 _ (by decide)⟩

end MesosValidation
